import Mathlib

/-!
Verification of the SQL-to-streaming-dataflow compiler core of the Arroyo
repository.  The Rust sources under `arroyo-sql` (`plan_graph.rs`, `lib.rs`,
`avro.rs`) and `arroyo-worker` (`formats.rs`) are shallowly embedded below.
Helper crates that are not part of the provided sources (`types.rs`,
`pipeline.rs`, `arroyo_datastream`, third-party crates such as `syn`,
`serde_json` and `unicase`) are represented either by definitions modelled
from the specification (marked as such) or by abstract parameters over which
the theorems are universally quantified.
-/

namespace Arroyo

/-! ### Basic external data types (std / arroyo_datastream) -/

/-- `std::time::Duration`: seconds and nanoseconds. Only `Duration::from_secs`
is used by the embedded code. -/
structure Duration where
  secs : Nat
  nanos : Nat
  deriving DecidableEq, Repr

def Duration.from_secs (n : Nat) : Duration := ⟨n, 0⟩

/-- `arroyo_datastream::EdgeType` (spec: `EdgeType ∈ {Forward, Shuffle,
ShuffleJoin(side)}`; the crate itself is not under `src/`). -/
inductive EdgeType where
  | Forward
  | Shuffle
  | ShuffleJoin (side : Nat)
  deriving DecidableEq, Repr

/-- `arroyo_datastream::WindowType`. Modelled from the spec: tumbling(width),
sliding(width, slide), session(gap) or instant windows. -/
inductive WindowType where
  | Tumbling (width : Duration)
  | Sliding (width : Duration) (slide : Duration)
  | Instant
  | Session (gap : Duration)
  deriving DecidableEq, Repr

/-- `arroyo_datastream::WatermarkType`. Modelled from the spec: the only
variant exercised by the plan graph is the periodic watermark; other variants
are collapsed into an opaque tag. -/
inductive WatermarkType where
  | Periodic (period : Duration) (max_lateness : Duration)
  | other (tag : Nat)
  deriving DecidableEq, Repr

/-- `operators::GroupByKind`. Modelled from the spec: `GroupByKind::Basic` or
`::WindowOutput` (`operators.rs` is not under `src/`). -/
inductive GroupByKind where
  | Basic
  | WindowOutput
  deriving DecidableEq, Repr

/-- `pipeline::JoinType`. Modelled from the spec: SQL join kinds; the plan
graph only inspects whether a join is `Inner` (`pipeline.rs` is not under
`src/`). -/
inductive JoinType where
  | Inner
  | Left
  | Right
  | Full
  deriving DecidableEq, Repr

/-- `pipeline::WindowFunction`: the only window function appearing in the
sources is `RowNumber`. -/
inductive WindowFunction where
  | RowNumber
  deriving DecidableEq, Repr

/-! ### The type system (`types.rs`, modelled from the spec)

`types.rs` is not under `src/`.  The spec describes `TypeDef` as "either a
physical leaf (`DataType`, nullable flag) ... or a named `StructDef` (nullable
flag)", `StructDef` as a named record type with an ordered field list, and
`StructField` as field name, optional alias, `TypeDef`, optional rename and
optional "original" marker. -/

/-- The physical type lattice (`arrow_schema::DataType`), restricted to the
leaves actually produced by the embedded sources. -/
inductive DataType where
  | Null
  | Boolean
  | Int32
  | Int64
  | UInt64
  | Float32
  | Float64
  | Binary
  | Utf8
  deriving DecidableEq, Repr

mutual
/-- Modelled from the spec: `TypeDef` — a physical leaf with a nullable flag,
or a named `StructDef` with a nullable flag. -/
inductive TypeDef where
  | DataType (dt : DataType) (nullable : Bool)
  | StructDef (s : StructDef) (nullable : Bool)

/-- Modelled from the spec: `StructDef` — optional fully-qualified name and an
ordered list of fields. -/
inductive StructDef where
  | mk (name : Option String) (fields : List StructField)

/-- Modelled from the spec: `StructField` — field name, optional alias,
`TypeDef`, optional rename, optional "original" marker. -/
inductive StructField where
  | mk (name : String) (alias_ : Option String) (data_type : TypeDef)
       (renamed_as : Option String) (original : Option String)
end

def StructDef.name : StructDef → Option String
  | .mk n _ => n

def StructDef.fields : StructDef → List StructField
  | .mk _ f => f

/-- `StructDef::for_name(name, fields)` constructor used by `avro.rs`. -/
def StructDef.for_name (name : Option String) (fields : List StructField) : StructDef :=
  .mk name fields

def StructField.name : StructField → String
  | .mk n _ _ _ _ => n

def StructField.data_type : StructField → TypeDef
  | .mk _ _ d _ _ => d

def StructField.original : StructField → Option String
  | .mk _ _ _ _ o => o

/-- `StructField::with_rename(name, alias, data_type, rename, original)`
constructor used by `avro.rs`. -/
def StructField.with_rename (name : String) (alias_ : Option String)
    (data_type : TypeDef) (renamed_as : Option String) (original : Option String) :
    StructField :=
  .mk name alias_ data_type renamed_as original

/-- Modelled from the spec: `to_optional(td)` sets the nullability flag
(`types.rs` is not under `src/`). -/
def TypeDef.to_optional : TypeDef → TypeDef
  | .DataType dt _ => .DataType dt true
  | .StructDef s _ => .StructDef s true

/-- Modelled from the spec: `as_datatype()` returns the physical leaf or fails
for struct types (`types.rs` is not under `src/`). -/
def TypeDef.as_datatype : TypeDef → Option Arroyo.DataType
  | .DataType dt _ => some dt
  | .StructDef _ _ => none

/-- `types::StructPair` carried by the join-flatten operators. -/
structure StructPair where
  left : StructDef
  right : StructDef

/-! ### `arroyo-worker/src/formats.rs`: JSON deserialization -/

/-- A model of `serde_json::Value`, sufficient for the object construction and
`get("payload")` lookups performed by `deserialize_slice_json`. -/
inductive Json where
  | null
  | bool (b : Bool)
  | num (n : Int)
  | str (s : String)
  | arr (elems : List Json)
  | obj (fields : List (String × Json))
  deriving Repr

/-- `serde_json::Value::get(key)` on an object: first field with that name. -/
def Json.get (j : Json) (key : String) : Option Json :=
  match j with
  | .obj fields => (fields.find? (fun kv => kv.1 = key)).map (·.2)
  | _ => none

/-- The fields of `arroyo_types::formats::JsonFormat` read by
`deserialize_slice_json` (the full struct lives outside `src/`). -/
structure JsonFormat where
  confluent_schema_registry : Bool
  unstructured : Bool
  include_schema : Bool
  deriving DecidableEq, Repr

/-- Outcome of running a Rust function that may panic: `panicked` models a
panic (slice out of bounds, `unwrap` on `None`, `todo!`), `error` the `Err`
branch of the returned `Result`, `ok` the `Ok` branch. -/
inductive DeserResult (T : Type) where
  | panicked
  | ok (value : T)
  | error (msg : String)
  deriving Repr

/-- The external `serde_json` entry points called by `deserialize_slice_json`
(third-party crate): deserializing a byte slice to a `Value` or to `T`,
converting a `Value` to `T` (`from_value`, whose failure the source
`unwrap`s), printing a `Value`, and lossy UTF-8 decoding. The theorems
quantify over this environment. -/
structure SerdeEnv (T : Type) where
  from_slice_value : List Nat → Except String Json
  from_slice_t : List Nat → Except String T
  from_value_t : Json → Option T
  to_string : Json → String
  from_utf8_lossy : List Nat → String

/-- `deserialize_slice_json` from `arroyo-worker/src/formats.rs`.  With
`confluent_schema_registry` set the source takes `&msg[5..]`, which panics
when the message is shorter than 5 bytes; otherwise the remaining bytes are
parsed according to the `unstructured`/`include_schema` flags. -/
def deserialize_slice_json {T : Type} (env : SerdeEnv T) (format : JsonFormat)
    (msg : List Nat) : DeserResult T :=
  if format.confluent_schema_registry ∧ msg.length < 5 then
    -- `&msg[5..]` with `5 > msg.len()`: slice index out of range, panic
    .panicked
  else
    let msg := if format.confluent_schema_registry then msg.drop 5 else msg
    if format.unstructured then
      let j : Except String Json :=
        if format.include_schema then
          match env.from_slice_value msg with
          | .error e => .error ("Failed to deserialize json: " ++ e)
          | .ok v =>
            match v.get "payload" with
            | none => .error
                "`include_schema` set to true, but record does not have a payload field"
            | some payload => .ok (.obj [("value", .str (env.to_string payload))])
        else
          .ok (.obj [("value", .str (env.from_utf8_lossy msg))])
      match j with
      | .error e => .error e
      | .ok j =>
        match env.from_value_t j with
        | none => .panicked     -- `serde_json::from_value(j).unwrap()`
        | some t => .ok t
    else
      match env.from_slice_t msg with
      | .error e => .error ("Failed to deserialize JSON into schema: " ++ e)
      | .ok t => .ok t

/-! ### `arroyo-sql/src/lib.rs`: the catalog (`ArroyoSchemaProvider`) -/

/-- Lower-case folding of a string, character by character. -/
def caseFold (s : String) : List Char :=
  s.data.map Char.toLower

/-- Case-insensitive key equality, modelling the `UniCase` wrapper (third-party
crate) used to key the table map. -/
def uniCaseEq (a b : String) : Bool :=
  caseFold a == caseFold b

/-- `tables::Table` is not under `src/`; the catalog consumes only its `name()`
accessor, so a table is represented by its name together with an opaque
payload distinguishing distinct tables. -/
structure Table where
  name : String
  payload : Nat
  deriving DecidableEq, Repr

/-- A `HashMap<UniCase<String>, Table>` modelled as an association list whose
keys are compared case-insensitively; `insert` replaces any entry with an
equal (case-folded) key. -/
def tableMapInsert (tables : List (String × Table)) (key : String) (t : Table) :
    List (String × Table) :=
  (key, t) :: tables.filter (fun kv => ¬ uniCaseEq kv.1 key)

def tableMapGet (tables : List (String × Table)) (key : String) : Option Table :=
  (tables.find? (fun kv => uniCaseEq kv.1 key)).map (·.2)

/-- The data DataFusion's `create_udf` receives for a registered scalar UDF:
its exact argument `DataType`s and return `DataType` (the volatility and the
function pointer carry no information here). -/
structure ScalarUdf where
  arg_types : List DataType
  return_type : DataType
  deriving DecidableEq, Repr

/-- The data `AggregateUDF::new` receives for a registered aggregate UDF: the
exact signature and return type. -/
structure AggregateUdf where
  arg_types : List DataType
  return_type : DataType
  deriving DecidableEq, Repr

/-- `arroyo_rpc::UdfOpts` (outside `src/`): the only option the sources
mention is `async_results_ordered`. -/
structure UdfOpts where
  async_results_ordered : Bool
  deriving DecidableEq, Repr

/-- `UdfDef` from `lib.rs`. -/
structure UdfDef where
  args : List TypeDef
  ret : TypeDef
  def_ : String
  dependencies : String
  opts : UdfOpts
  async_fn : Bool
  has_context : Bool

/-- `HashMap<String, _>::insert` on an association list with exact string
keys: replaces any entry with an equal key. -/
def insertAssoc {α : Type} (m : List (String × α)) (k : String) (v : α) :
    List (String × α) :=
  (k, v) :: m.filter (fun kv => kv.1 ≠ k)

/-- The fields of `ArroyoSchemaProvider` involved in table and UDF
registration and lookup (the remaining fields — connections, profiles,
DataFusion config — are never read by the embedded functions). -/
structure ArroyoSchemaProvider where
  source_defs : List (String × String)
  tables : List (String × Table)
  functions : List (String × ScalarUdf)
  aggregate_functions : List (String × AggregateUdf)
  udf_defs : List (String × UdfDef)

/-- `ArroyoSchemaProvider::insert_table`: keys the map by
`UniCase::new(table.name())`. -/
def ArroyoSchemaProvider.insert_table (p : ArroyoSchemaProvider) (t : Table) :
    ArroyoSchemaProvider :=
  { p with tables := tableMapInsert p.tables t.name t }

/-- `ArroyoSchemaProvider::get_table`: looks the queried name up under
`UniCase` equality. -/
def ArroyoSchemaProvider.get_table (p : ArroyoSchemaProvider) (table_name : String) :
    Option Table :=
  tableMapGet p.tables table_name

/-- `connectors::Connection`: only the name and schema are consumed by
`add_connector_table`; the conversion `connection.into()` (a `Table`) is kept
abstract via `intoTable`. -/
structure Connection where
  name : String
  schemaDef : Option String
  payload : Nat
  deriving DecidableEq, Repr

/-- `ArroyoSchemaProvider::add_connector_table`: records the generated schema
definition (when `schema_defs` yields one, abstracted by `schemaDef`) and
inserts the connector table under `UniCase::new(connection.name)`.  The
`Connection → Table` conversion (`tables.rs`, not under `src/`) is the
parameter `intoTable`; it preserves the connection's name. -/
def ArroyoSchemaProvider.add_connector_table (intoTable : Connection → Table)
    (p : ArroyoSchemaProvider) (c : Connection) : ArroyoSchemaProvider :=
  let p := match c.schemaDef with
    | some def_ => { p with source_defs := (c.name, def_) :: p.source_defs }
    | none => p
  { p with tables := tableMapInsert p.tables c.name (intoTable c) }

/-! ### `arroyo-sql/src/avro.rs`: Avro schema → `TypeDef` -/

/-- `apache_avro::Schema` (third-party crate), covering every constructor the
`to_typedef` match distinguishes; schemas that fall into the source's
catch-all arm (arrays, maps, refs, dates, non-local timestamp-micros, ...) are
collapsed into `other`. -/
inductive AvroSchema where
  | null
  | boolean
  | int
  | long
  | float
  | double
  | bytes
  | string
  | timeMillis
  | timeMicros
  | timestampMillis
  | localTimestampMillis
  | localTimestampMicros
  | fixed (tag : Nat)
  | decimal (tag : Nat)
  | enum (tag : Nat)
  | uuid
  | union (variants : List AvroSchema)
  | record (name : String) (fields : List (String × AvroSchema))
  | other (tag : Nat)
  deriving Repr

/-- `matches!(v, Schema::Null)`, the predicate used to partition union
variants. -/
def AvroSchema.isNull : AvroSchema → Bool
  | .null => true
  | _ => false

theorem sizeOf_mem_lt_union {v : AvroSchema} {variants : List AvroSchema}
    (h : v ∈ variants) : sizeOf v < sizeOf (AvroSchema.union variants) := by
  have := List.sizeOf_lt_of_mem h
  simp only [AvroSchema.union.sizeOf_spec]
  omega

theorem sizeOf_mem_lt_record {fn : String} {fs : AvroSchema} {rname : String}
    {fields : List (String × AvroSchema)} (h : (fn, fs) ∈ fields) :
    sizeOf fs < sizeOf (AvroSchema.record rname fields) := by
  have h1 := List.sizeOf_lt_of_mem h
  have h2 : sizeOf fs < sizeOf (fn, fs) := by
    simp only [Prod.mk.sizeOf_spec]
    omega
  simp only [AvroSchema.record.sizeOf_spec]
  omega

mutual

/-- `to_typedef` from `arroyo-sql/src/avro.rs`: maps an Avro schema to a
`TypeDef` together with an optional "original" marker. -/
def to_typedef (source_name : String) (schema : AvroSchema) (for_generation : Bool) :
    TypeDef × Option String :=
  match schema with
  | .null => (.DataType .Null false, none)
  | .boolean => (.DataType .Boolean false, none)
  | .int | .timeMillis => (.DataType .Int32 false, none)
  | .long | .timeMicros | .timestampMillis
  | .localTimestampMillis | .localTimestampMicros => (.DataType .Int64 false, none)
  | .float => (.DataType .Float32 false, none)
  | .double => (.DataType .Float64 false, none)
  | .bytes | .fixed _ | .decimal _ => (.DataType .Binary false, none)
  | .string | .enum _ | .uuid => (.DataType .Utf8 false, none)
  | .union variants =>
    -- partition the variants into nulls and non-nulls
    let parts := variants.partition AvroSchema.isNull
    if h : parts.1.length = 1 ∧ parts.2.length = 1 then
      match h2 : parts.2 with
      | [notNull] =>
        have hmem : notNull ∈ variants := by
          have : notNull ∈ parts.2 := by rw [h2]; exact List.mem_singleton.mpr rfl
          have hp : parts.2 = variants.filter (not ∘ AvroSchema.isNull) := by
            simp [parts, List.partition_eq_filter_filter]
          rw [hp] at this
          exact List.mem_of_mem_filter this
        ((to_typedef source_name notNull for_generation).1.to_optional,
         (to_typedef source_name notNull for_generation).2)
      | [] => (.DataType .Utf8 false, some "json")
      | _ :: _ :: _ => (.DataType .Utf8 false, some "json")
    else
      (.DataType .Utf8 false, some "json")
  | .record rname fields =>
    let structFields := to_typedef_fields source_name fields for_generation
    let name := if for_generation then rname else source_name ++ "::" ++ rname
    (.StructDef (StructDef.for_name (some name) structFields) false, none)
  | .other _ => (.DataType .Utf8 false, some "json")
termination_by sizeOf schema
decreasing_by
  · exact sizeOf_mem_lt_union hmem
  · simp only [AvroSchema.record.sizeOf_spec]; omega

/-- The `record.fields.iter().map(...)` loop of `to_typedef`: each Avro record
field becomes a `StructField` (in declaration order) whose type and
"original" marker come from `to_typedef` on the field's schema. -/
def to_typedef_fields (source_name : String)
    (fields : List (String × AvroSchema)) (for_generation : Bool) :
    List StructField :=
  match fields with
  | [] => []
  | (fn, fs) :: rest =>
    StructField.with_rename fn none
        (to_typedef source_name fs for_generation).1 none
        (to_typedef source_name fs for_generation).2 ::
      to_typedef_fields source_name rest for_generation
termination_by sizeOf fields
decreasing_by
  · simp only [List.cons.sizeOf_spec, Prod.mk.sizeOf_spec]; omega
  · simp only [List.cons.sizeOf_spec]; omega

end

/-! ### `arroyo-sql/src/plan_graph.rs`: the plan graph

The plan-graph construction consults a handful of helpers from `pipeline.rs`,
`operators.rs` and `expressions.rs`, none of which are under `src/`.  Each
such helper is represented by the data the plan graph actually reads from it:
a projection by its output struct, an expression by an opaque tag, and the
derived-type functions (`return_type`, `has_window`, `output_struct`, ...) by
abstract parameters bundled in `PipelineFns`. -/

/-- `expressions::Expression`: opaque to the plan-graph construction. -/
structure Expression where
  tag : Nat
  deriving DecidableEq, Repr

/-- `expressions::SortExpression`: opaque to the plan-graph construction. -/
structure SortExpression where
  tag : Nat
  deriving DecidableEq, Repr

/-- `operators::Projection`: the construction only consumes
`projection.output_struct()`, so a projection is represented by that struct
(plus an opaque tag distinguishing distinct projections). -/
structure Projection where
  output_struct : StructDef
  tag : Nat

/-- `operators::AggregateProjection`, likewise represented by its output
struct. -/
structure AggregateProjection where
  output_struct : StructDef
  tag : Nat

/-- `operators::TwoPhaseAggregateProjection`: opaque payload. -/
structure TwoPhaseAggregateProjection where
  tag : Nat
  deriving DecidableEq, Repr

/-- `pipeline::RecordTransform`. -/
inductive RecordTransform where
  | Filter (predicate : Expression)
  | ValueProjection (projection : Projection)
  | KeyProjection (projection : Projection)

/-- `arroyo_datastream::ExpressionReturnType`. -/
inductive ExpressionReturnType where
  | Predicate
  | Record
  | OptionalRecord
  deriving DecidableEq, Repr

/-- `arroyo_datastream::Operator`, restricted to the constructors the embedded
branches of `PlanNode::to_operator` build themselves; operators produced by
the expression-generation machinery outside `src/` appear through the
abstract `EmitEnv` functions and the `ext` constructor. -/
inductive Operator where
  | Watermark (w : WatermarkType)
  | WindowJoin (window : WindowType)
  | JoinWithExpiration (left_expiration : Duration) (right_expiration : Duration)
  | ext (tag : Nat)
  deriving DecidableEq, Repr

/-- `SqlSource` (from `lib.rs`/`pipeline.rs`): the plan graph reads its
`struct_def` and its `operator`. -/
structure SqlSource where
  struct_def : StructDef
  operator : Operator

/-- `pipeline::AggregatingStrategy`: `add_aggregator` accepts only the
`AggregateProjection` variant and panics on the others, which are collapsed
into `other`. -/
inductive AggregatingStrategy where
  | AggregateProjection (projection : AggregateProjection)
  | other (tag : Nat)

/-- `pipeline::AggregateOperator` (fields read by `add_aggregator`). -/
structure AggregateOperator where
  key : Projection
  window : WindowType
  aggregating : AggregatingStrategy
  merge : GroupByKind

/-- `pipeline::JoinOperator` (fields read by `add_join`). -/
structure JoinOperatorDef where
  left_key : Projection
  right_key : Projection
  join_type : JoinType

/-- `pipeline::SqlWindowOperator` (fields read by `add_window`). -/
structure SqlWindowOperator where
  partition : Projection
  order_by : List SortExpression
  field_name : String
  window_fn : WindowFunction
  window : WindowType

/-- `PlanType` from `plan_graph.rs`. -/
inductive PlanType where
  | Unkeyed (value : StructDef)
  | Keyed (key : StructDef) (value : StructDef)
  | KeyedPair (key : StructDef) (left_value : StructDef) (right_value : StructDef)
  | KeyedListPair (key : StructDef) (left_value : StructDef) (right_value : StructDef)
  | KeyedLiteralTypeValue (key : StructDef) (value : String)

/-- `WindowFunctionOperator` from `plan_graph.rs`. -/
structure WindowFunctionOperator where
  window_function : WindowFunction
  order_by : List SortExpression
  window_type : WindowType
  result_struct : StructDef
  field_name : String

/-- `FusedRecordTransform` from `plan_graph.rs`. -/
structure FusedRecordTransform where
  expressions : List RecordTransform
  output_types : List PlanType
  expression_return_type : ExpressionReturnType

/-- `PlanOperator` from `plan_graph.rs`. -/
inductive PlanOperator where
  | Source (name : String) (source : SqlSource)
  | Watermark (w : WatermarkType)
  | RecordTransform (t : RecordTransform)
  | FusedRecordTransform (t : FusedRecordTransform)
  | Unkey
  | WindowAggregate (window : WindowType) (projection : AggregateProjection)
  | WindowMerge (key_struct : StructDef) (value_struct : StructDef)
      (group_by_kind : GroupByKind)
  | TumblingWindowTwoPhaseAggregator (tumble_width : Duration)
      (projection : TwoPhaseAggregateProjection)
  | SlidingWindowTwoPhaseAggregator (width : Duration) (slide : Duration)
      (projection : TwoPhaseAggregateProjection)
  | InstantJoin (join_type : JoinType)
  | JoinWithExpiration (left_expiration : Duration) (right_expiration : Duration)
      (join_type : JoinType)
  | JoinListFlatten (join_type : JoinType) (structs : StructPair)
  | JoinPairFlatten (join_type : JoinType) (structs : StructPair)
  | WindowFunction (op : WindowFunctionOperator)
  | TumblingLocalAggregator (width : Duration) (projection : TwoPhaseAggregateProjection)
  | SlidingAggregatingTopN (width : Duration) (slide : Duration)
      (aggregating_projection : TwoPhaseAggregateProjection)
      (group_by_projection : Projection) (group_by_kind : GroupByKind)
      (order_by : List SortExpression) (partition_projection : Projection)
      (converting_projection : Projection) (max_elements : Nat)
  | TumblingTopN (width : Duration) (max_elements : Nat)
      (window_function : WindowFunctionOperator)
  | StreamOperator (name : String) (op : Operator)

/-- `PlanNode` from `plan_graph.rs`. -/
structure PlanNode where
  operator : PlanOperator
  output_type : PlanType

/-- `PlanEdge` from `plan_graph.rs`. -/
structure PlanEdge where
  edge_data_type : PlanType
  edge_type : EdgeType

/-- Modelled from the spec: `arroyo_datastream::StreamEdge` carries a key-type
string, a value-type string and the edge type. -/
structure StreamEdge where
  key : String
  value : String
  edge_type : EdgeType
  deriving DecidableEq, Repr

/-- Modelled from the spec: `StreamEdge::keyed_edge(key, value, edge_type)`
builds a stream edge from the given key- and value-type strings. -/
def StreamEdge.keyed_edge (key : String) (value : String) (edge_type : EdgeType) :
    StreamEdge :=
  ⟨key, value, edge_type⟩

/-- Modelled from the spec: `StreamEdge::unkeyed_edge(value, edge_type)`
builds a stream edge whose key type is the unit type. -/
def StreamEdge.unkeyed_edge (value : String) (edge_type : EdgeType) : StreamEdge :=
  ⟨"()", value, edge_type⟩

/-- `PlanEdge::into_stream_edge` from `plan_graph.rs`, parametrised by
`StructDef::struct_name` (`types.rs`, not under `src/`). -/
def PlanEdge.into_stream_edge (struct_name : StructDef → String) (e : PlanEdge) :
    StreamEdge :=
  match e.edge_data_type with
  | .Unkeyed value_struct =>
    StreamEdge.unkeyed_edge (struct_name value_struct) e.edge_type
  | .Keyed key value =>
    StreamEdge.keyed_edge (struct_name key) (struct_name value) e.edge_type
  | .KeyedPair key left_value right_value =>
    StreamEdge.keyed_edge (struct_name key)
      ("(" ++ struct_name left_value ++ "," ++ struct_name right_value ++ ")")
      e.edge_type
  | .KeyedListPair key left_value right_value =>
    StreamEdge.keyed_edge (struct_name key)
      ("(Vec<" ++ struct_name left_value ++ ">,Vec<" ++ struct_name right_value ++ ">)")
      e.edge_type
  | .KeyedLiteralTypeValue key value =>
    StreamEdge.keyed_edge (struct_name key) value e.edge_type

/-- `pipeline::SqlOperator`, the logical operator tree consumed by the plan
graph. -/
inductive SqlOperator where
  | Source (name : String) (source : SqlSource)
  | Aggregator (input : SqlOperator) (aggregate : AggregateOperator)
  | JoinOperator (left : SqlOperator) (right : SqlOperator)
      (join_operator : JoinOperatorDef)
  | Window (input : SqlOperator) (window_operator : SqlWindowOperator)
  | WindowAggregateTopN (input : SqlOperator) (aggregate : AggregateOperator)
      (projection : Projection) (top_n : SqlWindowOperator)
  | RecordTransform (input : SqlOperator) (transform : RecordTransform)

/-- The `pipeline.rs` helpers consulted by the plan-graph construction
(`SqlOperator::return_type`, `SqlOperator::has_window`,
`AggregateOperator::output_struct`, `JoinType::output_struct`,
`RecordTransform::output_struct`); they live outside `src/`, so the theorems
quantify over them. -/
structure PipelineFns where
  return_type : SqlOperator → StructDef
  has_window : SqlOperator → Bool
  agg_output_struct : AggregateOperator → StructDef
  join_output_struct : JoinType → StructDef → StructDef → StructDef
  rt_output_struct : RecordTransform → StructDef → StructDef

/-- `SqlConfig` as read by `plan_graph.rs` (`default_parallelism` and the
configured sink operator). -/
structure SqlConfig where
  default_parallelism : Nat
  sink : Operator

/-- `PlanGraph` state during construction: a petgraph `DiGraph` is a node
arena (indices are insertion order) plus an edge list, and `sources` memoizes
source names to node indices.  The `types`/`key_structs` sets are initialised
empty and not touched during construction, so they are omitted. -/
structure PlanGraph where
  nodes : List PlanNode
  edges : List (Nat × Nat × PlanEdge)
  sources : List (String × Nat)
  sql_config : SqlConfig

/-- `PlanGraph::insert_operator`: `DiGraph::add_node` appends and returns the
fresh index. -/
def PlanGraph.insert_operator (g : PlanGraph) (operator : PlanOperator)
    (typ : PlanType) : PlanGraph × Nat :=
  ({ g with nodes := g.nodes ++ [⟨operator, typ⟩] }, g.nodes.length)

/-- `DiGraph::add_edge`. -/
def PlanGraph.add_edge (g : PlanGraph) (src : Nat) (dst : Nat) (e : PlanEdge) :
    PlanGraph :=
  { g with edges := g.edges ++ [(src, dst, e)] }

/-- `PlanGraph::add_sql_source`: memoized on the source name; a fresh source
is followed by a periodic watermark node with `period = 1s` and
`max_lateness = 1s`, connected by a forward edge of the source's unkeyed
type. -/
def addSqlSource (g : PlanGraph) (name : String) (sql_source : SqlSource) :
    PlanGraph × Nat :=
  match g.sources.lookup name with
  | some node_index => (g, node_index)
  | none =>
    let plan_type := PlanType.Unkeyed sql_source.struct_def
    let (g, source_index) := g.insert_operator (.Source name sql_source) plan_type
    let watermark_operator := PlanOperator.Watermark
      (.Periodic (Duration.from_secs 1) (Duration.from_secs 1))
    let (g, watermark_index) := g.insert_operator watermark_operator plan_type
    let g := g.add_edge source_index watermark_index ⟨plan_type, .Forward⟩
    let g := { g with sources := (name, watermark_index) :: g.sources }
    (g, watermark_index)

mutual

/-- `PlanGraph::add_sql_operator`: dispatch over the `SqlOperator` tree.  The
overall result is an `Option`: `none` models a panic
(`add_window_aggregate_top_n` is `todo!()`, and `add_aggregator` panics on a
two-phase aggregating strategy). -/
def addSqlOperator (ext : PipelineFns) (g : PlanGraph) (operator : SqlOperator) :
    Option (PlanGraph × Nat) :=
  match operator with
  | .Source name sql_source => some (addSqlSource g name sql_source)
  | .Aggregator input projection => addAggregator ext g input projection
  | .JoinOperator left right join_operator => addJoin ext g left right join_operator
  | .Window input window_operator => addWindow ext g input window_operator
  | .WindowAggregateTopN _ _ _ _ => none   -- `add_window_aggregate_top_n` is `todo!()`
  | .RecordTransform input transform => addRecordTransform ext g input transform
termination_by 2 * sizeOf operator

/-- `PlanGraph::add_aggregator`. -/
def addAggregator (ext : PipelineFns) (g : PlanGraph) (input : SqlOperator)
    (aggregate : AggregateOperator) : Option (PlanGraph × Nat) := do
  let input_type := ext.return_type input
  let output_type := ext.agg_output_struct aggregate
  let key_struct := aggregate.key.output_struct
  let (g, input_index) ← addSqlOperator ext g input
  let key_operator := PlanOperator.RecordTransform (.KeyProjection aggregate.key)
  let (g, key_index) := g.insert_operator key_operator (.Keyed key_struct input_type)
  let g := g.add_edge input_index key_index ⟨.Unkeyed input_type, .Forward⟩
  match aggregate.aggregating with
  | .other _ => none   -- panic!("two phase not supported here, ...")
  | .AggregateProjection aggregate_projection =>
    let aggregate_struct := aggregate_projection.output_struct
    let aggregate_operator := PlanOperator.WindowAggregate aggregate.window
      aggregate_projection
    let (g, aggregate_index) := g.insert_operator aggregate_operator
      (.Keyed key_struct aggregate_struct)
    let g := g.add_edge key_index aggregate_index
      ⟨.Keyed key_struct input_type, .Shuffle⟩
    let merge_node := PlanOperator.WindowMerge key_struct aggregate_struct
      aggregate.merge
    let (g, merge_index) := g.insert_operator merge_node
      (.Keyed key_struct output_type)
    let g := g.add_edge aggregate_index merge_index
      ⟨.Keyed key_struct aggregate_struct, .Forward⟩
    some (g, merge_index)
termination_by 2 * sizeOf input + 1

/-- `PlanGraph::add_join`. -/
def addJoin (ext : PipelineFns) (g : PlanGraph) (left : SqlOperator)
    (right : SqlOperator) (join_operator : JoinOperatorDef) :
    Option (PlanGraph × Nat) := do
  let left_type := ext.return_type left
  let right_type := ext.return_type right
  -- right now left and right either both have or don't have windows
  let has_window := ext.has_window left
  let join_type := join_operator.join_type
  let (g, left_index) ← addSqlOperator ext g left
  let (g, right_index) ← addSqlOperator ext g right
  let key_struct := join_operator.left_key.output_struct
  let left_key_operator := PlanOperator.RecordTransform
    (.KeyProjection join_operator.left_key)
  let right_key_operator := PlanOperator.RecordTransform
    (.KeyProjection join_operator.right_key)
  let (g, left_key_index) := g.insert_operator left_key_operator
    (.Keyed key_struct left_type)
  let (g, right_key_index) := g.insert_operator right_key_operator
    (.Keyed key_struct right_type)
  let g := g.add_edge left_index left_key_index ⟨.Unkeyed left_type, .Forward⟩
  let g := g.add_edge right_index right_key_index ⟨.Unkeyed right_type, .Forward⟩
  let (join_node, join_output_type, post_join_node) :=
    if has_window then
      (PlanOperator.InstantJoin join_type,
       PlanType.KeyedListPair key_struct left_type right_type,
       PlanOperator.JoinListFlatten join_type ⟨left_type, right_type⟩)
    else
      (PlanOperator.JoinWithExpiration (Duration.from_secs (24 * 60 * 60))
         (Duration.from_secs (24 * 60 * 60)) join_type,
       PlanType.KeyedPair key_struct left_type right_type,
       PlanOperator.JoinPairFlatten join_type ⟨left_type, right_type⟩)
  let (g, join_index) := g.insert_operator join_node join_output_type
  let g := g.add_edge left_key_index join_index
    ⟨.Keyed key_struct left_type, .ShuffleJoin 0⟩
  let g := g.add_edge right_key_index join_index
    ⟨.Keyed key_struct right_type, .ShuffleJoin 1⟩
  let post_join_type := ext.join_output_struct join_type left_type right_type
  let (g, post_join_index) := g.insert_operator post_join_node
    (.Unkeyed post_join_type)
  let g := g.add_edge join_index post_join_index ⟨join_output_type, .Forward⟩
  some (g, post_join_index)
termination_by 2 * (sizeOf left + sizeOf right) + 1

/-- `PlanGraph::add_window`. -/
def addWindow (ext : PipelineFns) (g : PlanGraph) (input : SqlOperator)
    (window_operator : SqlWindowOperator) : Option (PlanGraph × Nat) := do
  let input_type := ext.return_type input
  let (g, input_index) ← addSqlOperator ext g input
  let result_type := StructDef.mk input_type.name (input_type.fields ++
    [StructField.mk window_operator.field_name none (.DataType .UInt64 false)
      none none])
  let partition_struct := window_operator.partition.output_struct
  let partition_key_node := PlanOperator.RecordTransform
    (.KeyProjection window_operator.partition)
  let (g, partition_key_index) := g.insert_operator partition_key_node
    (.Keyed partition_struct input_type)
  let g := g.add_edge input_index partition_key_index
    ⟨.Unkeyed input_type, .Forward⟩
  let window_function_node := PlanOperator.WindowFunction
    ⟨window_operator.window_fn, window_operator.order_by, window_operator.window,
     result_type, window_operator.field_name⟩
  let (g, window_function_index) := g.insert_operator window_function_node
    (.Keyed partition_struct result_type)
  let g := g.add_edge partition_key_index window_function_index
    ⟨.Keyed partition_struct input_type, .Shuffle⟩
  let (g, unkey_index) := g.insert_operator .Unkey (.Unkeyed result_type)
  let g := g.add_edge window_function_index unkey_index
    ⟨.Keyed partition_struct result_type, .Forward⟩
  some (g, unkey_index)
termination_by 2 * sizeOf input + 1

/-- `PlanGraph::add_record_transform`. -/
def addRecordTransform (ext : PipelineFns) (g : PlanGraph) (input : SqlOperator)
    (transform : RecordTransform) : Option (PlanGraph × Nat) := do
  let input_type := ext.return_type input
  let return_type := ext.rt_output_struct transform input_type
  let (g, input_index) ← addSqlOperator ext g input
  let (g, plan_node_index) := g.insert_operator (.RecordTransform transform)
    (.Unkeyed return_type)
  let g := g.add_edge input_index plan_node_index ⟨.Unkeyed input_type, .Forward⟩
  some (g, plan_node_index)
termination_by 2 * sizeOf input + 1

end

/-- `PlanGraph::new(sql_config, operator)`: builds the graph for the operator
tree and attaches the configured sink with a forward edge. -/
def planGraphNew (ext : PipelineFns) (sql_config : SqlConfig)
    (operator : SqlOperator) : Option PlanGraph := do
  let g : PlanGraph := { nodes := [], edges := [], sources := [], sql_config }
  let (g, result_index) ← addSqlOperator ext g operator
  let node ← g.nodes[result_index]?   -- `node_weight(result_index).unwrap()`
  let edge_type := node.output_type
  let (g, sink_index) := g.insert_operator
    (.StreamOperator "sink" g.sql_config.sink) edge_type
  let g := g.add_edge result_index sink_index ⟨edge_type, .Forward⟩
  some g

/-- The expression-generation entry points used by `PlanNode::to_operator`
branches whose bodies live outside `src/` (`MethodCompiler`,
`to_syn_expression`, ...); the theorems quantify over them.  Each returns an
`Option` so that panics inside those helpers stay representable. -/
structure EmitEnv where
  merge_pair_operator : JoinType → StructPair → Option Operator
  other_operator : PlanOperator → Option Operator

/-- `PlanNode::to_operator` from `plan_graph.rs`.  The `InstantJoin` branch
runs `assert_eq!(JoinType::Inner, *join_type)` and the `JoinPairFlatten`
branch runs `assert!(*join_type == JoinType::Inner)`; a failed assertion is a
panic, modelled as `none`.  Branches that delegate entirely to
expression-generation code outside `src/` go through `env.other_operator`. -/
def PlanNode.to_operator (env : EmitEnv) (node : PlanNode) : Option Operator :=
  match node.operator with
  | .Source _ source => some source.operator
  | .Watermark watermark => some (.Watermark watermark)
  | .InstantJoin join_type =>
    if join_type = JoinType.Inner then some (.WindowJoin .Instant) else none
  | .JoinWithExpiration left_expiration right_expiration _ =>
    some (.JoinWithExpiration left_expiration right_expiration)
  | .JoinPairFlatten join_type struct_pair =>
    if join_type = JoinType.Inner then env.merge_pair_operator join_type struct_pair
    else none
  | .StreamOperator _ stream_operator => some stream_operator
  | op => env.other_operator op

/-! ### `arroyo-sql/src/lib.rs`: `add_rust_udf`

The UDF text is parsed by the third-party `syn` crate; the parsed AST is
modelled below at the granularity `add_rust_udf` inspects it. -/

/-- `syn::Type`: a path type is a segment list, each segment an identifier
with its angle-bracketed *type* arguments (the only kind of generic argument
`vec_inner_type` extracts); all other type forms are opaque. -/
inductive SynType where
  | path (segments : List (String × List SynType))
  | other (tag : Nat)

/-- `syn::FnArg`: a receiver (`self`-style) parameter or a typed parameter
whose pattern is an identifier (or not, in which case the name is absent). -/
inductive FnArg where
  | receiver
  | typed (pat_ident : Option String) (ty : SynType)

/-- The parts of `syn::ItemFn` read by `add_rust_udf`. -/
structure ItemFn where
  name : String
  asyncness : Bool
  inputs : List FnArg
  output : Option SynType

/-- `syn::Item`: a top-level function or anything else. -/
inductive SynItem where
  | fn (f : ItemFn)
  | other (tag : Nat)

/-- `syn::File`. -/
structure SynFile where
  items : List SynItem

/-- `ArroyoSchemaProvider::vec_inner_type`: a `Vec<T>` path type (checked on
the last path segment, with exactly one generic argument) yields `T`. -/
def vec_inner_type (ty : SynType) : Option SynType :=
  match ty with
  | .path segments =>
    match segments.getLast? with
    | some (ident, args) =>
      if ident = "Vec" then
        match args with
        | [inner_ty] => some inner_ty
        | _ => none
      else none
    | none => none
  | .other _ => none

/-- The external helpers `add_rust_udf` calls whose bodies are third-party or
regex/toml-driven (`syn::parse_file`, `TryInto<TypeDef> for &syn::Type` from
`types.rs`, `prettyplease::unparse`, and the regex-based
`parse_dependencies`/`parse_udf_opts`); the theorems quantify over them. -/
structure UdfEnv where
  parse_file : String → Except String SynFile
  try_into_typedef : SynType → Option TypeDef
  unparse : SynFile → String
  parse_dependencies : String → Except String String
  parse_udf_opts : String → Except String UdfOpts

/-- The context-skipping prelude of `add_rust_udf`: for an `async fn` whose
first parameter is a typed parameter whose pattern is the identifier
`context`, one argument is skipped and `has_context` is set. -/
def contextSkip (f : ItemFn) : Nat × Bool :=
  if f.asyncness then
    match f.inputs.head? with
    | some (.typed (some pid) _) =>
      if pid = "context" then (1, true) else (0, false)
    | _ => (0, false)
  else (0, false)

/-- The argument loop of `add_rust_udf` (`for (i, arg) in
inputs.skip(skip).enumerate()`): collects the converted `TypeDef`s and counts
the `Vec`-typed arguments, bailing on the first receiver parameter or
unconvertible type. -/
def processArgs (env : UdfEnv) (name : String) :
    List FnArg → Nat → Except String (List TypeDef × Nat)
  | [], _ => .ok ([], 0)
  | .receiver :: _, _ =>
    .error ("Function " ++ name ++ " has a 'self' argument, which is not allowed")
  | .typed _ ty :: rest, i =>
    match vec_inner_type ty with
    | some vec_type =>
      match env.try_into_typedef vec_type with
      | none => .error ("Could not convert function " ++ name ++
          " inner vector arg " ++ toString i ++ " into a SQL data type")
      | some td =>
        match processArgs env name rest (i + 1) with
        | .error e => .error e
        | .ok (args, v) => .ok (td :: args, v + 1)
    | none =>
      match env.try_into_typedef ty with
      | none => .error ("Could not convert function " ++ name ++ " arg " ++
          toString i ++ " into a SQL data type")
      | some td =>
        match processArgs env name rest (i + 1) with
        | .error e => .error e
        | .ok (args, v) => .ok (td :: args, v)

/-- `ArroyoSchemaProvider::add_rust_udf`.  The outer `Option` models panics
(`.unwrap()` on `as_datatype`), the inner `Except` the returned
`anyhow::Result<String>`; the provider component is the post-call state of
`self` (mutations before a bail point are visible, matching the `&mut self`
receiver). -/
def add_rust_udf (env : UdfEnv) (p : ArroyoSchemaProvider) (body : String) :
    Option (ArroyoSchemaProvider × Except String String) :=
  match env.parse_file body with
  | .error e => some (p, .error e)
  | .ok file =>
    match file.items.filterMap (fun i => match i with
        | .fn f => some f
        | .other _ => none) with
    | [function] =>
      let name := function.name
      let async_fn := function.asyncness
      -- skip the first argument if it is a context
      let skip := (contextSkip function).1
      let has_context := (contextSkip function).2
      match processArgs env name (function.inputs.drop skip) 0 with
      | .error e => some (p, .error e)
      | .ok (args, vec_arguments) =>
        match function.output with
        | none =>
          some (p, .error ("Function " ++ name ++ " return type must be specified"))
        | some out_ty =>
          match env.try_into_typedef out_ty with
          | none => some (p, .error ("Could not convert function " ++ name ++
              " return type into a SQL data type"))
          | some ret =>
            if vec_arguments > 0 ∧ vec_arguments ≠ args.length then
              some (p, .error ("Function " ++ name ++
                " arguments must be vectors or none"))
            else
              let registered : Option ArroyoSchemaProvider :=
                if vec_arguments > 0 then
                  match ret.as_datatype, args.mapM TypeDef.as_datatype with
                  | some rdt, some adts =>
                    let aggs := insertAssoc p.aggregate_functions name ⟨adts, rdt⟩
                    some { p with aggregate_functions := aggs }
                  | _, _ => none
                else
                  match args.mapM TypeDef.as_datatype, ret.as_datatype with
                  | some adts, some rdt =>
                    let fns := insertAssoc p.functions name ⟨adts, rdt⟩
                    some { p with functions := fns }
                  | _, _ => none
              match registered with
              | none => none
              | some p1 =>
                match env.parse_dependencies body with
                | .error e => some (p1, .error e)
                | .ok deps =>
                  match env.parse_udf_opts body with
                  | .error e => some (p1, .error e)
                  | .ok opts =>
                    let ud : UdfDef :=
                      ⟨args, ret, env.unparse file, deps, opts, async_fn, has_context⟩
                    some ({ p1 with udf_defs := insertAssoc p1.udf_defs name ud },
                      .ok name)
    | _ => some (p, .error "UDF definition must contain exactly 1 function.")

/-! ### Concrete fixtures used by witnesses and counterexamples -/

def sampleStruct : StructDef := .mk (some "TestStruct") []

def sampleStructB : StructDef := .mk (some "OtherStruct") []

def sampleProjection : Projection := ⟨sampleStruct, 0⟩

def sampleSource : SqlSource := ⟨sampleStruct, .ext 0⟩

def sampleConfig : SqlConfig := ⟨4, .ext 1⟩

def emptyGraph : PlanGraph := ⟨[], [], [], sampleConfig⟩

def samplePipelineFns : PipelineFns :=
  ⟨fun _ => sampleStruct, fun _ => false, fun _ => sampleStruct,
   fun _ _ _ => sampleStruct, fun _ _ => sampleStruct⟩

def sampleAggregate : AggregateOperator :=
  ⟨sampleProjection, .Instant, .AggregateProjection ⟨sampleStruct, 0⟩, .Basic⟩

def sampleWindowOp : SqlWindowOperator :=
  ⟨sampleProjection, [], "row_num", .RowNumber, .Instant⟩

def sampleEmitEnv : EmitEnv := ⟨fun _ _ => some (.ext 2), fun _ => some (.ext 3)⟩

/-! ### Claim theorems -/

/-- **C1**: for every `PlanEdge` whose `edge_data_type` is `KeyedPair{K,L,R}`,
`into_stream_edge` produces a `StreamEdge` whose value-type string is the
tuple form `"(L,R)"` built from the two struct names, and for
`KeyedListPair{K,L,R}` it is the list-pair form — rendered over the Rust list
type as `"(Vec<L>,Vec<R>)"` (the spec writes the same shape language-neutrally
as `(list<L>, list<R>)`). -/
theorem C1_into_stream_edge_pair_value_strings
    (struct_name : StructDef → String) (K L R : StructDef) (t : EdgeType) :
    (PlanEdge.into_stream_edge struct_name ⟨.KeyedPair K L R, t⟩ =
       StreamEdge.keyed_edge (struct_name K)
         ("(" ++ struct_name L ++ "," ++ struct_name R ++ ")") t ∧
     (PlanEdge.into_stream_edge struct_name ⟨.KeyedPair K L R, t⟩).value =
       "(" ++ struct_name L ++ "," ++ struct_name R ++ ")") ∧
    (PlanEdge.into_stream_edge struct_name ⟨.KeyedListPair K L R, t⟩ =
       StreamEdge.keyed_edge (struct_name K)
         ("(Vec<" ++ struct_name L ++ ">,Vec<" ++ struct_name R ++ ">)") t ∧
     (PlanEdge.into_stream_edge struct_name ⟨.KeyedListPair K L R, t⟩).value =
       "(Vec<" ++ struct_name L ++ ">,Vec<" ++ struct_name R ++ ">)") := by
  refine ⟨⟨rfl, rfl⟩, rfl, rfl⟩

/-- **C3**: `add_sql_source` on a not-yet-registered source name appends
exactly the `Source` node (output `Unkeyed(T)`) and a `Watermark` node whose
type is `Periodic{period = 1s, max_lateness = 1s}`, connected by a `Forward`
edge carrying the same `Unkeyed(T)`; the periodic values are fixed constants,
independent of every argument. -/
theorem C3_add_sql_source_watermark (g : PlanGraph) (name : String)
    (src : SqlSource) (h : g.sources.lookup name = none) :
    addSqlSource g name src =
      ({ nodes := g.nodes ++
           [⟨.Source name src, .Unkeyed src.struct_def⟩,
            ⟨.Watermark (.Periodic (Duration.from_secs 1) (Duration.from_secs 1)),
             .Unkeyed src.struct_def⟩],
         edges := g.edges ++
           [(g.nodes.length, g.nodes.length + 1,
             ⟨.Unkeyed src.struct_def, .Forward⟩)],
         sources := (name, g.nodes.length + 1) :: g.sources,
         sql_config := g.sql_config }, g.nodes.length + 1) := by
  simp [addSqlSource, h, PlanGraph.insert_operator, PlanGraph.add_edge]

theorem C3_witness :
    addSqlSource emptyGraph "events" sampleSource =
      ({ nodes := [⟨.Source "events" sampleSource, .Unkeyed sampleStruct⟩,
                   ⟨.Watermark (.Periodic (Duration.from_secs 1) (Duration.from_secs 1)),
                    .Unkeyed sampleStruct⟩],
         edges := [(0, 1, ⟨.Unkeyed sampleStruct, .Forward⟩)],
         sources := [("events", 1)],
         sql_config := sampleConfig }, 1) :=
  C3_add_sql_source_watermark emptyGraph "events" sampleSource rfl

theorem to_typedef_fields_eq_map (n : String) (fg : Bool)
    (fields : List (String × AvroSchema)) :
    to_typedef_fields n fields fg =
      fields.map (fun f => StructField.with_rename f.1 none
        (to_typedef n f.2 fg).1 none (to_typedef n f.2 fg).2) := by
  induction fields with
  | nil => simp [to_typedef_fields]
  | cons hd tl ih => cases hd; simp [to_typedef_fields, ih]

/-- **C4**: for every Avro union, `to_typedef` returns the optional (nullable)
form of the non-null variant's result exactly when the union has exactly two
variants of which exactly one is null, and `Utf8` (non-nullable) with
original marker `"json"` for every other union; for every Avro record the
resulting struct's fields are the record's fields mapped in declaration
order. -/
theorem C4_avro_union_and_record_order (n : String) (fg : Bool) :
    (∀ variants : List AvroSchema,
      ((variants.length = 2 ∧ variants.countP AvroSchema.isNull = 1) →
        ∃ v, variants.filter (fun s => !s.isNull) = [v] ∧
          to_typedef n (.union variants) fg =
            ((to_typedef n v fg).1.to_optional, (to_typedef n v fg).2)) ∧
      (¬ (variants.length = 2 ∧ variants.countP AvroSchema.isNull = 1) →
        to_typedef n (.union variants) fg =
          (.DataType .Utf8 false, some "json"))) ∧
    (∀ (rname : String) (fields : List (String × AvroSchema)),
      to_typedef n (.record rname fields) fg =
        (.StructDef (StructDef.for_name
            (some (if fg then rname else n ++ "::" ++ rname))
            (fields.map (fun f => StructField.with_rename f.1 none
              (to_typedef n f.2 fg).1 none (to_typedef n f.2 fg).2))) false,
         none)) := by
  have hnot : ∀ variants : List AvroSchema,
      (variants.filter (fun s => !s.isNull)).length =
        variants.countP (fun s => !s.isNull) := by
    intro variants
    rw [List.countP_eq_length_filter]
  have hsum : ∀ variants : List AvroSchema,
      variants.length = variants.countP AvroSchema.isNull +
        variants.countP (fun s => !s.isNull) := by
    intro variants
    simpa using variants.length_eq_countP_add_countP (p := AvroSchema.isNull)
  have hpart : ∀ variants : List AvroSchema,
      variants.partition AvroSchema.isNull =
        (variants.filter AvroSchema.isNull, variants.filter (fun s => !s.isNull)) := by
    intro variants
    rw [List.partition_eq_filter_filter]
    rfl
  constructor
  · intro variants
    constructor
    · rintro ⟨hlen, hcount⟩
      have h1 : (variants.partition AvroSchema.isNull).1.length = 1 := by
        rw [hpart]
        rw [← List.countP_eq_length_filter]
        exact hcount
      have h2 : (variants.partition AvroSchema.isNull).2.length = 1 := by
        rw [hpart]
        have := hsum variants
        rw [hnot]
        omega
      obtain ⟨v, hv2⟩ := List.length_eq_one.mp h2
      have hv : variants.filter (fun s => !s.isNull) = [v] := by
        rw [hpart] at hv2; exact hv2
      refine ⟨v, hv, ?_⟩
      simp only [to_typedef]
      rw [dif_pos ⟨h1, h2⟩]
      split
      · next notNull heq =>
        have hvn : v = notNull := ((List.cons.injEq ..).mp (hv2.symm.trans heq)).1
        subst hvn
        rfl
      · next heq => rw [hv2] at heq; simp at heq
      · next x y z heq => rw [hv2] at heq; simp at heq
    · intro hnc
      have hD : ¬ ((variants.partition AvroSchema.isNull).1.length = 1 ∧
          (variants.partition AvroSchema.isNull).2.length = 1) := by
        rw [hpart]
        intro ⟨ha, hb⟩
        apply hnc
        rw [← List.countP_eq_length_filter] at ha
        rw [hnot variants] at hb
        have := hsum variants
        omega
      simp only [to_typedef]
      rw [dif_neg hD]
  · intro rname fields
    simp only [to_typedef, to_typedef_fields_eq_map]

def avroSrcName : String := "src"

theorem C4_witness :
    (to_typedef avroSrcName (.union [.null, .long]) false =
       (.DataType .Int64 true, none)) ∧
    (to_typedef avroSrcName (.union [.long, .boolean]) false =
       (.DataType .Utf8 false, some "json")) ∧
    (to_typedef avroSrcName (.record "Rec" [("a", .boolean), ("b", .string)]) false =
       (.StructDef (StructDef.for_name (some (avroSrcName ++ "::" ++ "Rec"))
           [StructField.with_rename "a" none (.DataType .Boolean false) none none,
            StructField.with_rename "b" none (.DataType .Utf8 false) none none])
          false, none)) := by
  refine ⟨?_, ?_, ?_⟩
  · have h := ((C4_avro_union_and_record_order avroSrcName false).1 [.null, .long]).1
      (by constructor <;> rfl)
    obtain ⟨v, hv, hres⟩ := h
    have hveq : AvroSchema.long = v := by
      simpa [AvroSchema.isNull] using hv
    subst hveq
    rw [hres]
    simp [to_typedef, TypeDef.to_optional]
  · have h := ((C4_avro_union_and_record_order avroSrcName false).1 [.long, .boolean]).2
      (by rintro ⟨_, hc⟩; simp [AvroSchema.isNull] at hc)
    rw [h]
  · have h := (C4_avro_union_and_record_order avroSrcName false).2 "Rec"
      [("a", .boolean), ("b", .string)]
    rw [h]
    simp [to_typedef]

/-- The per-argument predicate of the `add_rust_udf` loop: a typed parameter
of shape `Vec<T>`. -/
def isVecArg (a : FnArg) : Bool :=
  match a with
  | .typed _ ty => (vec_inner_type ty).isSome
  | .receiver => false

theorem processArgs_ok_spec (env : UdfEnv) (name : String) :
    ∀ (l : List FnArg) (i : Nat) (args : List TypeDef) (v : Nat),
      processArgs env name l i = .ok (args, v) →
      args.length = l.length ∧ v = l.countP isVecArg := by
  intro l
  induction l with
  | nil =>
    intro i args v h
    simp only [processArgs] at h
    obtain ⟨rfl, rfl⟩ := (by simpa using h : args = [] ∧ 0 = v)
    simp
  | cons hd tl ih =>
    intro i args v h
    cases hd with
    | receiver => simp [processArgs] at h
    | typed pid ty =>
      simp only [processArgs] at h
      cases hvt : vec_inner_type ty with
      | some vt =>
        cases hconv : env.try_into_typedef vt with
        | none => simp [hvt, hconv] at h
        | some td =>
          cases hrec : processArgs env name tl (i + 1) with
          | error e => simp [hvt, hconv, hrec] at h
          | ok pr =>
            obtain ⟨args', v'⟩ := pr
            simp only [hvt, hconv, hrec] at h
            obtain ⟨rfl, rfl⟩ :=
              (by simpa using h : td :: args' = args ∧ v' + 1 = v)
            obtain ⟨hl, hc⟩ := ih (i + 1) args' v' hrec
            simp [List.countP_cons, isVecArg, hvt, hl, hc]
      | none =>
        cases hconv : env.try_into_typedef ty with
        | none => simp [hvt, hconv] at h
        | some td =>
          cases hrec : processArgs env name tl (i + 1) with
          | error e => simp [hvt, hconv, hrec] at h
          | ok pr =>
            obtain ⟨args', v'⟩ := pr
            simp only [hvt, hconv, hrec] at h
            obtain ⟨rfl, rfl⟩ :=
              (by simpa using h : td :: args' = args ∧ v' = v)
            obtain ⟨hl, hc⟩ := ih (i + 1) args' v' hrec
            simp [List.countP_cons, isVecArg, hvt, hl, hc]

/-- A parameter list whose entries are all typed with convertible types makes
the argument loop succeed. -/
theorem processArgs_ok_of_forall (env : UdfEnv) (name : String) :
    ∀ (l : List FnArg),
      (∀ a ∈ l, ∃ pid ty, a = FnArg.typed pid ty ∧
        (match vec_inner_type ty with
         | some inner => (env.try_into_typedef inner).isSome
         | none => (env.try_into_typedef ty).isSome) = true) →
      ∀ i, ∃ args v, processArgs env name l i = .ok (args, v) := by
  intro l
  induction l with
  | nil => exact fun _ i => ⟨[], 0, rfl⟩
  | cons hd tl ih =>
    intro hall i
    obtain ⟨pid, ty, rfl, hc⟩ := hall hd (List.mem_cons_self ..)
    obtain ⟨args, v, hrec⟩ :=
      ih (fun a ha => hall a (List.mem_cons_of_mem _ ha)) (i + 1)
    cases hvt : vec_inner_type ty with
    | some vt =>
      rw [hvt] at hc
      obtain ⟨td, htd⟩ := Option.isSome_iff_exists.mp hc
      exact ⟨td :: args, v + 1, by simp [processArgs, hvt, htd, hrec]⟩
    | none =>
      rw [hvt] at hc
      obtain ⟨td, htd⟩ := Option.isSome_iff_exists.mp hc
      exact ⟨td :: args, v, by simp [processArgs, hvt, htd, hrec]⟩

/-- Extract the single parsed function of a UDF body. -/
def udfFunctions (file : SynFile) : List ItemFn :=
  file.items.filterMap (fun i => match i with
    | .fn f => some f
    | .other _ => none)

/-- **C5**: (1) for every UDF body whose single function has — after any
skipped async `context` parameter — only typed, convertible parameters, at
least one `Vec<T>` parameter and at least one non-`Vec` parameter, plus a
convertible return type, `add_rust_udf` fails with the error `"Function <f>
arguments must be vectors or none"` and the provider is returned unchanged
(nothing is registered); and (2) whenever a call to `add_rust_udf` changes
the aggregate-function registry at all, every (post-skip) parameter of the
single function was a `Vec<T>` parameter, and there was at least one. -/
theorem C5_add_rust_udf_vec_discipline :
    (∀ (env : UdfEnv) (p : ArroyoSchemaProvider) (body : String)
       (file : SynFile) (f : ItemFn),
      env.parse_file body = .ok file →
      udfFunctions file = [f] →
      (∀ a ∈ f.inputs.drop (contextSkip f).1, ∃ pid ty, a = FnArg.typed pid ty ∧
        (match vec_inner_type ty with
         | some inner => (env.try_into_typedef inner).isSome
         | none => (env.try_into_typedef ty).isSome) = true) →
      (∃ a ∈ f.inputs.drop (contextSkip f).1, isVecArg a = true) →
      (∃ a ∈ f.inputs.drop (contextSkip f).1, isVecArg a = false) →
      (∃ rt, f.output = some rt ∧ (env.try_into_typedef rt).isSome = true) →
      add_rust_udf env p body =
        some (p, .error ("Function " ++ f.name ++
          " arguments must be vectors or none"))) ∧
    (∀ (env : UdfEnv) (p p' : ArroyoSchemaProvider) (body : String)
       (r : Except String String) (file : SynFile) (f : ItemFn),
      env.parse_file body = .ok file →
      udfFunctions file = [f] →
      add_rust_udf env p body = some (p', r) →
      p'.aggregate_functions ≠ p.aggregate_functions →
      0 < (f.inputs.drop (contextSkip f).1).length ∧
      ∀ a ∈ f.inputs.drop (contextSkip f).1, isVecArg a = true) := by
  constructor
  · intro env p body file f hpf hfns hall hvec hnonvec hret
    obtain ⟨args, v, hpa⟩ :=
      processArgs_ok_of_forall env f.name (f.inputs.drop (contextSkip f).1) hall 0
    obtain ⟨hargslen, hv⟩ := processArgs_ok_spec env f.name _ 0 args v hpa
    obtain ⟨rt, hrt, hconv⟩ := hret
    obtain ⟨rtd, hrtd⟩ := Option.isSome_iff_exists.mp hconv
    have hpos : 0 < v := by
      rw [hv]
      exact List.countP_pos_iff.mpr hvec
    have hne : v ≠ args.length := by
      rw [hv, hargslen]
      intro hEq
      obtain ⟨a, ha, hfalse⟩ := hnonvec
      have hsat := List.countP_eq_length.mp hEq a ha
      rw [hfalse] at hsat
      exact Bool.false_ne_true hsat
    have hfns' : file.items.filterMap (fun i => match i with
        | .fn g => some g
        | .other _ => none) = [f] := hfns
    simp only [add_rust_udf, hpf, hfns', hpa, hrt, hrtd]
    rw [if_pos ⟨hpos, hne⟩]
  · intro env p p' body r file f hpf hfns h hagg
    have hfns' : file.items.filterMap (fun i => match i with
        | .fn g => some g
        | .other _ => none) = [f] := hfns
    simp only [add_rust_udf, hpf, hfns'] at h
    cases hpa : processArgs env f.name (f.inputs.drop (contextSkip f).1) 0 with
    | error e =>
      simp only [hpa] at h
      obtain ⟨rfl, -⟩ := (by simpa using h : p = p' ∧ _ = r)
      exact absurd rfl hagg
    | ok pr =>
      obtain ⟨args, v⟩ := pr
      simp only [hpa] at h
      obtain ⟨hargslen, hv⟩ := processArgs_ok_spec env f.name _ 0 args v hpa
      cases hout : f.output with
      | none =>
        simp only [hout] at h
        obtain ⟨rfl, -⟩ := (by simpa using h : p = p' ∧ _ = r)
        exact absurd rfl hagg
      | some rt =>
        simp only [hout] at h
        cases hconv : env.try_into_typedef rt with
        | none =>
          simp only [hconv] at h
          obtain ⟨rfl, -⟩ := (by simpa using h : p = p' ∧ _ = r)
          exact absurd rfl hagg
        | some ret =>
          simp only [hconv] at h
          by_cases hmix : v > 0 ∧ v ≠ args.length
          · rw [if_pos hmix] at h
            obtain ⟨rfl, -⟩ := (by simpa using h : p = p' ∧ _ = r)
            exact absurd rfl hagg
          · rw [if_neg hmix] at h
            by_cases hvpos : v > 0
            · have hveq : v = args.length := by
                by_contra hne
                exact hmix ⟨hvpos, hne⟩
              refine ⟨by omega, ?_⟩
              have hcp : (f.inputs.drop (contextSkip f).1).countP isVecArg =
                  (f.inputs.drop (contextSkip f).1).length := by
                omega
              exact List.countP_eq_length.mp hcp
            · have hv0 : v = 0 := by omega
              subst hv0
              simp only [gt_iff_lt, lt_irrefl, if_false] at h
              exfalso
              apply hagg
              cases had : args.mapM TypeDef.as_datatype with
              | none => simp only [had] at h; simp at h
              | some adts =>
                simp only [had] at h
                cases hrd : ret.as_datatype with
                | none => simp only [hrd] at h; simp at h
                | some rdt =>
                  simp only [hrd] at h
                  cases hdeps : env.parse_dependencies body with
                  | error e =>
                    simp only [hdeps] at h
                    obtain ⟨hp', -⟩ := (by simpa using h : _ = p' ∧ _ = r)
                    rw [← hp']
                  | ok deps =>
                    simp only [hdeps] at h
                    cases hopts : env.parse_udf_opts body with
                    | error e =>
                      simp only [hopts] at h
                      obtain ⟨hp', -⟩ := (by simpa using h : _ = p' ∧ _ = r)
                      rw [← hp']
                    | ok opts =>
                      simp only [hopts] at h
                      obtain ⟨hp', -⟩ := (by simpa using h : _ = p' ∧ _ = r)
                      rw [← hp']

def tyI64 : SynType := .path [("i64", [])]

def tyVecI64 : SynType := .path [("Vec", [tyI64])]

def mixedUdfFile : SynFile :=
  ⟨[.fn ⟨"f", false, [.typed (some "a") tyVecI64, .typed (some "b") tyI64],
     some tyI64⟩]⟩

def sampleUdfEnv : UdfEnv :=
  ⟨fun _ => .ok mixedUdfFile,
   fun _ => some (.DataType .Int64 false),
   fun _ => "",
   fun _ => .ok "[dependencies]",
   fun _ => .ok ⟨false⟩⟩

theorem C5_witness :
    add_rust_udf sampleUdfEnv sampleProvider "fn f(a: Vec<i64>, b: i64) -> i64 { 0 }" =
      some (sampleProvider,
        .error ("Function " ++ "f" ++ " arguments must be vectors or none")) := by
  apply C5_add_rust_udf_vec_discipline.1 sampleUdfEnv sampleProvider _
    mixedUdfFile ⟨"f", false, [.typed (some "a") tyVecI64, .typed (some "b") tyI64],
      some tyI64⟩ rfl rfl
  · intro a ha
    have hmem : a = FnArg.typed (some "a") tyVecI64 ∨
        a = FnArg.typed (some "b") tyI64 := by
      simpa [contextSkip] using ha
    rcases hmem with rfl | rfl
    · exact ⟨some "a", tyVecI64, rfl, by simp [vec_inner_type, tyVecI64, sampleUdfEnv]⟩
    · exact ⟨some "b", tyI64, rfl, by simp [vec_inner_type, tyI64, sampleUdfEnv]⟩
  · exact ⟨.typed (some "a") tyVecI64, by simp [contextSkip],
      by simp [isVecArg, vec_inner_type, tyVecI64]⟩
  · exact ⟨.typed (some "b") tyI64, by simp [contextSkip],
      by simp [isVecArg, vec_inner_type, tyI64]⟩
  · exact ⟨tyI64, rfl, by simp [sampleUdfEnv]⟩

/-- **C7 (amended)**: lowering a `SqlOperator::WindowAggregateTopN` node does
not return an error to the caller — the `add_window_aggregate_top_n` path is
`todo!()`, so it panics (modelled as `none`) for every input. -/
theorem C7_window_aggregate_top_n_panics (ext : PipelineFns) (g : PlanGraph)
    (input : SqlOperator) (aggregate : AggregateOperator)
    (projection : Projection) (top_n : SqlWindowOperator) :
    addSqlOperator ext g
      (.WindowAggregateTopN input aggregate projection top_n) = none := by
  simp [addSqlOperator]

/-- **C7 (counterexample)**: at a concrete `WindowAggregateTopN` node,
lowering panics (`todo!()`, modelled as `none`); it does not produce an
`UnsupportedFeature` error value (the lowering functions return plain node
indices and have no error channel at all), contradicting the claim that an
error is "returned to the caller ... rather than ... a crash". -/
theorem C7_counterexample :
    addSqlOperator samplePipelineFns emptyGraph
      (.WindowAggregateTopN (.Source "events" sampleSource) sampleAggregate
        sampleProjection sampleWindowOp) = none := by
  simp [addSqlOperator]

/-- **C2**: whenever `add_join` lowers a non-windowed join (both recursive
lowering calls succeeding with states `g1`, `g2` and indices `li`, `ri`), the
inserted join node is `JoinWithExpiration` with `left_expiration` and
`right_expiration` both 24 hours and output `PlanType`
`KeyedPair{K, L, R}` (with `K` the key-projection output struct and `L`, `R`
the left/right return types), it is followed (via a forward edge) by a
`JoinPairFlatten` node, and the edges from the left and right key-projection
nodes into the join are `ShuffleJoin(0)` and `ShuffleJoin(1)` respectively. -/
theorem C2_add_join_non_windowed (ext : PipelineFns) (g g1 g2 : PlanGraph)
    (left right : SqlOperator) (jop : JoinOperatorDef) (li ri : Nat)
    (hw : ext.has_window left = false)
    (h1 : addSqlOperator ext g left = some (g1, li))
    (h2 : addSqlOperator ext g1 right = some (g2, ri)) :
    addJoin ext g left right jop =
      some (PlanGraph.mk
        (g2.nodes ++
          [⟨.RecordTransform (.KeyProjection jop.left_key),
            .Keyed jop.left_key.output_struct (ext.return_type left)⟩,
           ⟨.RecordTransform (.KeyProjection jop.right_key),
            .Keyed jop.left_key.output_struct (ext.return_type right)⟩,
           ⟨.JoinWithExpiration (Duration.from_secs (24 * 60 * 60))
              (Duration.from_secs (24 * 60 * 60)) jop.join_type,
            .KeyedPair jop.left_key.output_struct (ext.return_type left)
              (ext.return_type right)⟩,
           ⟨.JoinPairFlatten jop.join_type
              ⟨ext.return_type left, ext.return_type right⟩,
            .Unkeyed (ext.join_output_struct jop.join_type (ext.return_type left)
              (ext.return_type right))⟩])
        (g2.edges ++
          [(li, g2.nodes.length, ⟨.Unkeyed (ext.return_type left), .Forward⟩),
           (ri, g2.nodes.length + 1,
            ⟨.Unkeyed (ext.return_type right), .Forward⟩),
           (g2.nodes.length, g2.nodes.length + 2,
            ⟨.Keyed jop.left_key.output_struct (ext.return_type left),
             .ShuffleJoin 0⟩),
           (g2.nodes.length + 1, g2.nodes.length + 2,
            ⟨.Keyed jop.left_key.output_struct (ext.return_type right),
             .ShuffleJoin 1⟩),
           (g2.nodes.length + 2, g2.nodes.length + 3,
            ⟨.KeyedPair jop.left_key.output_struct (ext.return_type left)
               (ext.return_type right), .Forward⟩)])
        g2.sources g2.sql_config, g2.nodes.length + 3) := by
  simp [addJoin, h1, h2, hw, PlanGraph.insert_operator, PlanGraph.add_edge]

def srcB : SqlSource := ⟨sampleStructB, .ext 4⟩

def jopFixture : JoinOperatorDef := ⟨⟨sampleStruct, 1⟩, ⟨sampleStructB, 2⟩, .Inner⟩

def g1Fixture : PlanGraph :=
  { nodes := [⟨.Source "a" sampleSource, .Unkeyed sampleStruct⟩,
              ⟨.Watermark (.Periodic (Duration.from_secs 1) (Duration.from_secs 1)),
               .Unkeyed sampleStruct⟩],
    edges := [(0, 1, ⟨.Unkeyed sampleStruct, .Forward⟩)],
    sources := [("a", 1)],
    sql_config := sampleConfig }

def g2Fixture : PlanGraph :=
  { nodes := g1Fixture.nodes ++
      [⟨.Source "b" srcB, .Unkeyed sampleStructB⟩,
       ⟨.Watermark (.Periodic (Duration.from_secs 1) (Duration.from_secs 1)),
        .Unkeyed sampleStructB⟩],
    edges := g1Fixture.edges ++ [(2, 3, ⟨.Unkeyed sampleStructB, .Forward⟩)],
    sources := [("b", 3), ("a", 1)],
    sql_config := sampleConfig }

theorem C2_witness :
    addJoin samplePipelineFns emptyGraph (.Source "a" sampleSource)
      (.Source "b" srcB) jopFixture =
    some (PlanGraph.mk
      (g2Fixture.nodes ++
        [⟨.RecordTransform (.KeyProjection jopFixture.left_key),
          .Keyed sampleStruct sampleStruct⟩,
         ⟨.RecordTransform (.KeyProjection jopFixture.right_key),
          .Keyed sampleStruct sampleStruct⟩,
         ⟨.JoinWithExpiration (Duration.from_secs 86400)
            (Duration.from_secs 86400) .Inner,
          .KeyedPair sampleStruct sampleStruct sampleStruct⟩,
         ⟨.JoinPairFlatten .Inner ⟨sampleStruct, sampleStruct⟩,
          .Unkeyed sampleStruct⟩])
      (g2Fixture.edges ++
        [(1, 4, ⟨.Unkeyed sampleStruct, .Forward⟩),
         (3, 5, ⟨.Unkeyed sampleStruct, .Forward⟩),
         (4, 6, ⟨.Keyed sampleStruct sampleStruct, .ShuffleJoin 0⟩),
         (5, 6, ⟨.Keyed sampleStruct sampleStruct, .ShuffleJoin 1⟩),
         (6, 7, ⟨.KeyedPair sampleStruct sampleStruct sampleStruct, .Forward⟩)])
      g2Fixture.sources sampleConfig, 7) := by
  have h1 : addSqlOperator samplePipelineFns emptyGraph (.Source "a" sampleSource) =
      some (g1Fixture, 1) := by
    simp [addSqlOperator, addSqlSource, PlanGraph.insert_operator,
      PlanGraph.add_edge, emptyGraph, g1Fixture, sampleSource, List.lookup]
  have h2 : addSqlOperator samplePipelineFns g1Fixture (.Source "b" srcB) =
      some (g2Fixture, 3) := by
    simp [addSqlOperator, addSqlSource, PlanGraph.insert_operator,
      PlanGraph.add_edge, g1Fixture, g2Fixture, srcB, sampleSource, List.lookup]
  exact C2_add_join_non_windowed samplePipelineFns emptyGraph g1Fixture g2Fixture
    (.Source "a" sampleSource) (.Source "b" srcB) jopFixture 1 3 rfl h1 h2

/-- An edge whose type is `Shuffle` or `ShuffleJoin(_)`. -/
def PlanEdge.isShuffleLike (e : PlanEdge) : Bool :=
  match e.edge_type with
  | .Shuffle => true
  | .ShuffleJoin _ => true
  | .Forward => false

/-- A keyed `PlanType` (everything except `Unkeyed`). -/
def PlanType.isKeyed : PlanType → Bool
  | .Unkeyed _ => false
  | .Keyed _ _ => true
  | .KeyedPair _ _ _ => true
  | .KeyedListPair _ _ _ => true
  | .KeyedLiteralTypeValue _ _ => true

/-- The C6 invariant: the source node of every `Shuffle`/`ShuffleJoin` edge
exists and has a keyed output `PlanType`. -/
def shuffleInv (g : PlanGraph) : Prop :=
  ∀ s d e, (s, d, e) ∈ g.edges → e.isShuffleLike = true →
    ∃ n, g.nodes[s]? = some n ∧ n.output_type.isKeyed = true

theorem triple_eq {α β γ : Type} {a₁ a₂ : α} {b₁ b₂ : β} {c₁ c₂ : γ}
    (h : (a₁, b₁, c₁) = (a₂, b₂, c₂)) : a₁ = a₂ ∧ b₁ = b₂ ∧ c₁ = c₂ := by
  obtain ⟨h1, h2⟩ := Prod.ext_iff.mp h
  obtain ⟨h3, h4⟩ := Prod.ext_iff.mp h2
  exact ⟨h1, h3, h4⟩

theorem nodes_lookup_append {l t : List PlanNode} {s : Nat} {n : PlanNode}
    (h : l[s]? = some n) : (l ++ t)[s]? = some n := by
  have hs : s < l.length := by
    by_contra hns
    rw [List.getElem?_eq_none (by omega)] at h
    cases h
  rw [List.getElem?_append_left hs]
  exact h

theorem append_lookup_offset (l t : List PlanNode) (k : Nat) :
    (l ++ t)[l.length + k]? = t[k]? := by
  rw [List.getElem?_append_right (by omega)]
  congr 1
  omega

theorem append_lookup_zero (l t : List PlanNode) :
    (l ++ t)[l.length]? = t[0]? := by
  simpa using append_lookup_offset l t 0

/-- Appending nodes and edges preserves the invariant when every appended
shuffle-like edge already points at a keyed node of the extended arena. -/
theorem shuffleInv_extend (g : PlanGraph) (newNodes : List PlanNode)
    (newEdges : List (Nat × Nat × PlanEdge)) (srcs : List (String × Nat))
    (cfg : SqlConfig) (hinv : shuffleInv g)
    (hnew : ∀ s d e, (s, d, e) ∈ newEdges → e.isShuffleLike = true →
      ∃ n, (g.nodes ++ newNodes)[s]? = some n ∧ n.output_type.isKeyed = true) :
    shuffleInv ⟨g.nodes ++ newNodes, g.edges ++ newEdges, srcs, cfg⟩ := by
  intro s d e hmem hsl
  rcases List.mem_append.mp hmem with hold | hnewm
  · obtain ⟨n, hn, hk⟩ := hinv s d e hold hsl
    exact ⟨n, nodes_lookup_append hn, hk⟩
  · exact hnew s d e hnewm hsl

theorem addSqlOperator_preserves_inv (ext : PipelineFns) :
    ∀ (op : SqlOperator) (g g' : PlanGraph) (i : Nat),
      addSqlOperator ext g op = some (g', i) → shuffleInv g → shuffleInv g' := by
  intro op
  induction op with
  | Source name src =>
    intro g g' i h hinv
    have h' : addSqlSource g name src = (g', i) := by
      simpa [addSqlOperator] using h
    cases hlk : g.sources.lookup name with
    | some idx =>
      simp only [addSqlSource, hlk] at h'
      obtain ⟨rfl, -⟩ := Prod.ext_iff.mp h'
      exact hinv
    | none =>
      simp only [addSqlSource, hlk, PlanGraph.insert_operator,
        PlanGraph.add_edge] at h'
      obtain ⟨hg, -⟩ := Prod.ext_iff.mp h'
      subst hg
      have := shuffleInv_extend g
        [⟨.Source name src, .Unkeyed src.struct_def⟩,
         ⟨.Watermark (.Periodic (Duration.from_secs 1) (Duration.from_secs 1)),
          .Unkeyed src.struct_def⟩]
        [(g.nodes.length, g.nodes.length + 1,
          ⟨.Unkeyed src.struct_def, .Forward⟩)]
        ((name, g.nodes.length + 1) :: g.sources) g.sql_config hinv ?_
      · simpa using this
      · intro s d e hm hsl
        simp only [List.mem_singleton] at hm
        obtain ⟨rfl, rfl, rfl⟩ := triple_eq hm
        simp [PlanEdge.isShuffleLike] at hsl
  | Aggregator input agg ih =>
    intro g g' i h hinv
    have h' : addAggregator ext g input agg = some (g', i) := by
      simpa [addSqlOperator] using h
    cases h1 : addSqlOperator ext g input with
    | none => simp [addAggregator, h1] at h'
    | some pr =>
      obtain ⟨g1, ii⟩ := pr
      have hinv1 := ih g g1 ii h1 hinv
      cases hstrat : agg.aggregating with
      | other tag => simp [addAggregator, h1, hstrat] at h'
      | AggregateProjection ap =>
        simp only [addAggregator, h1, hstrat, PlanGraph.insert_operator,
          PlanGraph.add_edge, Option.some_bind, Option.bind_eq_bind, Option.some.injEq,
          List.append_assoc, List.length_append, List.singleton_append,
          List.cons_append, List.nil_append, List.length_cons,
          List.length_nil] at h'
        obtain ⟨hg, -⟩ := Prod.ext_iff.mp h'
        subst hg
        refine shuffleInv_extend g1 _ _ _ _ hinv1 ?_
        intro s d e hm hsl
        simp only [List.mem_cons, List.mem_singleton, List.not_mem_nil] at hm
        rcases hm with hm | hm | hm | hm
        · obtain ⟨rfl, rfl, rfl⟩ := triple_eq hm
          simp [PlanEdge.isShuffleLike] at hsl
        · obtain ⟨rfl, rfl, rfl⟩ := triple_eq hm
          refine ⟨_, append_lookup_zero .., ?_⟩
          simp [PlanType.isKeyed]
        · obtain ⟨rfl, rfl, rfl⟩ := triple_eq hm
          simp [PlanEdge.isShuffleLike] at hsl
        · cases hm
  | JoinOperator left right jop ihl ihr =>
    intro g g' i h hinv
    have h' : addJoin ext g left right jop = some (g', i) := by
      simpa [addSqlOperator] using h
    cases h1 : addSqlOperator ext g left with
    | none => simp [addJoin, h1] at h'
    | some pr1 =>
      obtain ⟨g1, li⟩ := pr1
      have hinv1 := ihl g g1 li h1 hinv
      cases h2 : addSqlOperator ext g1 right with
      | none => simp [addJoin, h1, h2] at h'
      | some pr2 =>
        obtain ⟨g2, ri⟩ := pr2
        have hinv2 := ihr g1 g2 ri h2 hinv1
        cases hhw : ext.has_window left with
        | true =>
          simp only [addJoin, h1, h2, hhw, PlanGraph.insert_operator,
            PlanGraph.add_edge, Option.some_bind, Option.bind_eq_bind, Option.some.injEq,
            if_true, List.append_assoc, List.length_append,
            List.singleton_append, List.cons_append, List.nil_append,
            List.length_cons, List.length_nil] at h'
          obtain ⟨hg, -⟩ := Prod.ext_iff.mp h'
          subst hg
          refine shuffleInv_extend g2 _ _ _ _ hinv2 ?_
          intro s d e hm hsl
          simp only [List.mem_cons, List.mem_singleton, List.not_mem_nil] at hm
          rcases hm with hm | hm | hm | hm | hm | hm
          · obtain ⟨rfl, rfl, rfl⟩ := triple_eq hm
            simp [PlanEdge.isShuffleLike] at hsl
          · obtain ⟨rfl, rfl, rfl⟩ := triple_eq hm
            simp [PlanEdge.isShuffleLike] at hsl
          · obtain ⟨rfl, rfl, rfl⟩ := triple_eq hm
            refine ⟨_, append_lookup_zero .., ?_⟩
            simp [PlanType.isKeyed]
          · obtain ⟨rfl, rfl, rfl⟩ := triple_eq hm
            refine ⟨_, append_lookup_offset g2.nodes _ 1, ?_⟩
            simp [PlanType.isKeyed]
          · obtain ⟨rfl, rfl, rfl⟩ := triple_eq hm
            simp [PlanEdge.isShuffleLike] at hsl
          · cases hm
        | false =>
          simp only [addJoin, h1, h2, hhw, PlanGraph.insert_operator,
            PlanGraph.add_edge, Option.some_bind, Option.bind_eq_bind, Option.some.injEq,
            if_false, Bool.false_eq_true, List.append_assoc,
            List.length_append, List.singleton_append, List.cons_append,
            List.nil_append, List.length_cons, List.length_nil] at h'
          obtain ⟨hg, -⟩ := Prod.ext_iff.mp h'
          subst hg
          refine shuffleInv_extend g2 _ _ _ _ hinv2 ?_
          intro s d e hm hsl
          simp only [List.mem_cons, List.mem_singleton, List.not_mem_nil] at hm
          rcases hm with hm | hm | hm | hm | hm | hm
          · obtain ⟨rfl, rfl, rfl⟩ := triple_eq hm
            simp [PlanEdge.isShuffleLike] at hsl
          · obtain ⟨rfl, rfl, rfl⟩ := triple_eq hm
            simp [PlanEdge.isShuffleLike] at hsl
          · obtain ⟨rfl, rfl, rfl⟩ := triple_eq hm
            refine ⟨_, append_lookup_zero .., ?_⟩
            simp [PlanType.isKeyed]
          · obtain ⟨rfl, rfl, rfl⟩ := triple_eq hm
            refine ⟨_, append_lookup_offset g2.nodes _ 1, ?_⟩
            simp [PlanType.isKeyed]
          · obtain ⟨rfl, rfl, rfl⟩ := triple_eq hm
            simp [PlanEdge.isShuffleLike] at hsl
          · cases hm
  | Window input wop ih =>
    intro g g' i h hinv
    have h' : addWindow ext g input wop = some (g', i) := by
      simpa [addSqlOperator] using h
    cases h1 : addSqlOperator ext g input with
    | none => simp [addWindow, h1] at h'
    | some pr =>
      obtain ⟨g1, ii⟩ := pr
      have hinv1 := ih g g1 ii h1 hinv
      simp only [addWindow, h1, PlanGraph.insert_operator, PlanGraph.add_edge,
        Option.some_bind, Option.bind_eq_bind, Option.some.injEq, List.append_assoc,
        List.length_append, List.singleton_append, List.cons_append,
        List.nil_append, List.length_cons, List.length_nil] at h'
      obtain ⟨hg, -⟩ := Prod.ext_iff.mp h'
      subst hg
      refine shuffleInv_extend g1 _ _ _ _ hinv1 ?_
      intro s d e hm hsl
      simp only [List.mem_cons, List.mem_singleton, List.not_mem_nil] at hm
      rcases hm with hm | hm | hm | hm
      · obtain ⟨rfl, rfl, rfl⟩ := triple_eq hm
        simp [PlanEdge.isShuffleLike] at hsl
      · obtain ⟨rfl, rfl, rfl⟩ := triple_eq hm
        refine ⟨_, append_lookup_zero .., ?_⟩
        simp [PlanType.isKeyed]
      · obtain ⟨rfl, rfl, rfl⟩ := triple_eq hm
        simp [PlanEdge.isShuffleLike] at hsl
      · cases hm
  | WindowAggregateTopN input agg proj topn ih =>
    intro g g' i h hinv
    simp [addSqlOperator] at h
  | RecordTransform input t ih =>
    intro g g' i h hinv
    have h' : addRecordTransform ext g input t = some (g', i) := by
      simpa [addSqlOperator] using h
    cases h1 : addSqlOperator ext g input with
    | none => simp [addRecordTransform, h1] at h'
    | some pr =>
      obtain ⟨g1, ii⟩ := pr
      have hinv1 := ih g g1 ii h1 hinv
      simp only [addRecordTransform, h1, PlanGraph.insert_operator,
        PlanGraph.add_edge, Option.some_bind, Option.bind_eq_bind, Option.some.injEq] at h'
      obtain ⟨hg, -⟩ := Prod.ext_iff.mp h'
      subst hg
      refine shuffleInv_extend g1 _ _ _ _ hinv1 ?_
      intro s d e hm hsl
      simp only [List.mem_singleton] at hm
      obtain ⟨rfl, rfl, rfl⟩ := triple_eq hm
      simp [PlanEdge.isShuffleLike] at hsl

/-- **C6**: in every plan graph produced by `PlanGraph::new` from a
`SqlOperator` tree, every node with an outgoing `Shuffle` or `ShuffleJoin`
edge exists and has a keyed output `PlanType` (never `Unkeyed`). -/
theorem C6_shuffle_edges_have_keyed_sources (ext : PipelineFns)
    (cfg : SqlConfig) (op : SqlOperator) (g : PlanGraph)
    (h : planGraphNew ext cfg op = some g) :
    ∀ s d e, (s, d, e) ∈ g.edges → e.isShuffleLike = true →
      ∃ n, g.nodes[s]? = some n ∧ n.output_type.isKeyed = true := by
  cases h1 : addSqlOperator ext ⟨[], [], [], cfg⟩ op with
  | none => simp [planGraphNew, h1] at h
  | some pr =>
    obtain ⟨g1, ri⟩ := pr
    have hinv1 : shuffleInv g1 :=
      addSqlOperator_preserves_inv ext op _ g1 ri h1
        (by intro s d e hm _; simp at hm)
    cases h2 : g1.nodes[ri]? with
    | none => simp [planGraphNew, h1, h2] at h
    | some node =>
      simp only [planGraphNew, h1, h2, PlanGraph.insert_operator,
        PlanGraph.add_edge, Option.some_bind, Option.bind_eq_bind, Option.some.injEq] at h
      subst h
      refine shuffleInv_extend g1 _ _ _ _ hinv1 ?_
      intro s d e hm hsl
      simp only [List.mem_singleton] at hm
      obtain ⟨rfl, rfl, rfl⟩ := triple_eq hm
      simp [PlanEdge.isShuffleLike] at hsl

def winResultStruct : StructDef :=
  .mk (some "TestStruct")
    [.mk "row_num" none (.DataType .UInt64 false) none none]

def gWFixture : PlanGraph :=
  ⟨[⟨.Source "a" sampleSource, .Unkeyed sampleStruct⟩,
    ⟨.Watermark (.Periodic (Duration.from_secs 1) (Duration.from_secs 1)),
     .Unkeyed sampleStruct⟩,
    ⟨.RecordTransform (.KeyProjection sampleProjection),
     .Keyed sampleStruct sampleStruct⟩,
    ⟨.WindowFunction ⟨.RowNumber, [], .Instant, winResultStruct, "row_num"⟩,
     .Keyed sampleStruct winResultStruct⟩,
    ⟨.Unkey, .Unkeyed winResultStruct⟩,
    ⟨.StreamOperator "sink" (.ext 1), .Unkeyed winResultStruct⟩],
   [(0, 1, ⟨.Unkeyed sampleStruct, .Forward⟩),
    (1, 2, ⟨.Unkeyed sampleStruct, .Forward⟩),
    (2, 3, ⟨.Keyed sampleStruct sampleStruct, .Shuffle⟩),
    (3, 4, ⟨.Keyed sampleStruct winResultStruct, .Forward⟩),
    (4, 5, ⟨.Unkeyed winResultStruct, .Forward⟩)],
   [("a", 1)], sampleConfig⟩

theorem C6_witness :
    planGraphNew samplePipelineFns sampleConfig
      (.Window (.Source "a" sampleSource) sampleWindowOp) = some gWFixture ∧
    (2, 3, PlanEdge.mk (.Keyed sampleStruct sampleStruct) .Shuffle) ∈
      gWFixture.edges ∧
    ∃ n, gWFixture.nodes[2]? = some n ∧ n.output_type.isKeyed = true := by
  have hplan : planGraphNew samplePipelineFns sampleConfig
      (.Window (.Source "a" sampleSource) sampleWindowOp) = some gWFixture := by
    simp [planGraphNew, addSqlOperator, addWindow, addSqlSource,
      PlanGraph.insert_operator, PlanGraph.add_edge, samplePipelineFns,
      sampleWindowOp, sampleProjection, sampleSource, sampleStruct,
      List.lookup, gWFixture, winResultStruct, StructDef.fields,
      StructDef.name, sampleConfig]
  refine ⟨hplan, by simp [gWFixture], ?_⟩
  exact C6_shuffle_edges_have_keyed_sources samplePipelineFns sampleConfig
    _ _ hplan 2 3 ⟨.Keyed sampleStruct sampleStruct, .Shuffle⟩
    (by simp [gWFixture]) rfl

/-- **C8**: after `insert_table` registers a table (or `add_connector_table`
registers a connector table) under name `s`, `get_table s'` for any `s'`
equal to `s` up to letter case returns exactly that table — which still
carries its original name. -/
theorem C8_table_lookup_case_insensitive :
    (∀ (p : ArroyoSchemaProvider) (t : Table) (s' : String),
       uniCaseEq t.name s' = true →
       (p.insert_table t).get_table s' = some t) ∧
    (∀ (intoTable : Connection → Table) (p : ArroyoSchemaProvider)
       (c : Connection) (s' : String),
       uniCaseEq c.name s' = true →
       (ArroyoSchemaProvider.add_connector_table intoTable p c).get_table s' =
         some (intoTable c)) := by
  constructor
  · intro p t s' h
    simp [ArroyoSchemaProvider.insert_table, ArroyoSchemaProvider.get_table,
      tableMapInsert, tableMapGet, List.find?_cons_of_pos, h]
  · intro intoTable p c s' h
    cases hc : c.schemaDef <;>
      simp [ArroyoSchemaProvider.add_connector_table, hc,
        ArroyoSchemaProvider.get_table, tableMapInsert, tableMapGet,
        List.find?_cons_of_pos, h]

def sampleProvider : ArroyoSchemaProvider := ⟨[], [], [], [], []⟩

theorem C8_witness :
    (sampleProvider.insert_table ⟨"Orders", 7⟩).get_table "ORDERS" =
      some ⟨"Orders", 7⟩ :=
  C8_table_lookup_case_insensitive.1 sampleProvider ⟨"Orders", 7⟩ "ORDERS"
    (by decide)

/-- **C9**: `PlanNode::to_operator` asserts `JoinType::Inner` on both the
`InstantJoin` and the `JoinPairFlatten` branches: for any node of either kind
carrying a non-`Inner` join type the serialization panics (modelled as
`none`) instead of returning an operator or an error. -/
theorem C9_to_operator_asserts_inner (env : EmitEnv) (jt : JoinType)
    (typ typ' : PlanType) (sp : StructPair) (h : jt ≠ JoinType.Inner) :
    PlanNode.to_operator env ⟨.InstantJoin jt, typ⟩ = none ∧
    PlanNode.to_operator env ⟨.JoinPairFlatten jt sp, typ'⟩ = none := by
  constructor <;> simp [PlanNode.to_operator, h]

theorem C9_witness :
    PlanNode.to_operator sampleEmitEnv
      ⟨.InstantJoin .Left, .Unkeyed sampleStruct⟩ = none ∧
    PlanNode.to_operator sampleEmitEnv
      ⟨.JoinPairFlatten .Left ⟨sampleStruct, sampleStructB⟩,
       .Unkeyed sampleStruct⟩ = none :=
  C9_to_operator_asserts_inner sampleEmitEnv .Left (.Unkeyed sampleStruct)
    (.Unkeyed sampleStruct) ⟨sampleStruct, sampleStructB⟩ (by decide)

/-- **C10**: with `confluent_schema_registry` set, `deserialize_slice_json`
unconditionally strips five bytes via `&msg[5..]`; on any message shorter
than 5 bytes that slice is out of bounds, so the function panics (modelled as
`panicked`) for every serde environment and flag combination, instead of
returning a deserialization error. -/
theorem C10_confluent_short_message_panics {T : Type} (env : SerdeEnv T)
    (format : JsonFormat) (msg : List Nat)
    (hc : format.confluent_schema_registry = true) (hlen : msg.length < 5) :
    deserialize_slice_json env format msg = .panicked := by
  simp [deserialize_slice_json, hc, hlen]

def sampleSerdeEnv : SerdeEnv Nat :=
  ⟨fun _ => .error "parse", fun _ => .error "parse", fun _ => none,
   fun _ => "", fun _ => ""⟩

theorem C10_witness :
    deserialize_slice_json sampleSerdeEnv ⟨true, false, false⟩ [0, 1, 2] =
      .panicked :=
  C10_confluent_short_message_panics sampleSerdeEnv ⟨true, false, false⟩
    [0, 1, 2] rfl (by decide)

end Arroyo
